import Mathlib

/-!
Shallow embedding of the DNS load balancer core: the health probe status
policy, the per-algorithm server selection, the zone synthesis, the resolver
reload paths and the scheduler state machine. Definitions mirror the
TypeScript source; JS strings are modelled as lists of characters and JS
numbers as rationals (integers where the source only ever holds integers).
-/

abbrev Chars := List Char

/-- Model of the JS `String.prototype.startsWith`. -/
def startsWithL : Chars → Chars → Bool
  | _, [] => true
  | [], _ :: _ => false
  | c :: cs, p :: ps => c == p && startsWithL cs ps

/-- Model of the JS `String.prototype.endsWith`. -/
def endsWithL (xs pat : Chars) : Bool :=
  startsWithL xs.reverse pat.reverse

/-- Model of the JS `String.prototype.includes`. -/
def containsL : Chars → Chars → Bool
  | [], pat => startsWithL [] pat
  | c :: rest, pat => startsWithL (c :: rest) pat || containsL rest pat

/-- Model of the JS `String.prototype.replace` with a string pattern: it
replaces the first occurrence only. -/
def replaceFirstL : Chars → Chars → Chars → Chars
  | [], pat, rep => if startsWithL [] pat then rep else []
  | c :: rest, pat, rep =>
    if startsWithL (c :: rest) pat then rep ++ (c :: rest).drop pat.length
    else c :: replaceFirstL rest pat rep

theorem endsWithL_append_singleton (xs : Chars) (c : Char) :
    endsWithL (xs ++ [c]) [c] = true := by
  simp [endsWithL, startsWithL]

example : endsWithL ("web.example.com".toList) (('.' :: "example.com".toList)) = true := by
  decide

example : replaceFirstL ("web.example.com".toList) ('.' :: "example.com".toList) [] =
    "web".toList := by decide

/-! Health probing: status strings and the composite status policy. -/

/-- Result of a single probe: a status string and a measured time. -/
structure ProbeResult where
  status : String
  responseTime : ℚ
  deriving DecidableEq

/-- Model of `determineOverallStatus` from the service class: combines the
ping probe status with the port probe status. -/
def determineOverallStatus (pingStatus portStatus : String) : String :=
  if pingStatus = "healthy" then
    if portStatus = "healthy" ∨ portStatus = "unknown" then "healthy" else "degraded"
  else if portStatus = "healthy" then "degraded"
  else "unhealthy"

/-- Modelled from the spec words: the ordered status-determination policy,
first match wins, with "unknown" read as the inapplicable port check. -/
def specOverallStatus (pingStatus portStatus : String) : String :=
  if pingStatus = "healthy" ∧ (portStatus = "healthy" ∨ portStatus = "unknown") then "healthy"
  else if pingStatus = "healthy" ∧ ¬ portStatus = "healthy" then "degraded"
  else if ¬ pingStatus = "healthy" ∧ portStatus = "healthy" then "degraded"
  else "unhealthy"

/-- Model of `dnsHealthCheck` for port 53: its try body only reads the clock
twice, so it unconditionally reports healthy with the elapsed time between
the two adjacent clock reads. -/
def dnsHealthCheck (elapsed : ℚ) : ProbeResult :=
  ⟨"healthy", elapsed⟩

/-- Model of the port dispatch in `checkServerHealth`: port 53 uses the DNS
check, ports 80 and 443 use the HTTP check, anything else reuses the ping
result. -/
def portCheck (port : ℤ) (pingResult httpResult : ProbeResult) (dnsElapsed : ℚ) : ProbeResult :=
  if port = 53 then dnsHealthCheck dnsElapsed
  else if port = 80 ∨ port = 443 then httpResult
  else pingResult

/-- Composite status computed by `checkServerHealth` on its non-exception
path. -/
def checkServerHealthStatus (port : ℤ) (pingResult httpResult : ProbeResult)
    (dnsElapsed : ℚ) : String :=
  determineOverallStatus pingResult.status (portCheck port pingResult httpResult dnsElapsed).status

/-! Server records and the health-based composite score. -/

/-- Health row of a server, as stored by the health checker. -/
structure HealthRec where
  status : String
  responseTime : ℚ
  uptime : ℚ
  load : ℚ
  memoryUsage : ℚ
  diskUsage : ℚ
  deriving DecidableEq

/-- Server of a balancer, with its optional health row. -/
structure ServerRec where
  name : Chars
  ip : Chars
  port : ℤ
  weight : ℤ
  isActive : Bool
  health : Option HealthRec
  deriving DecidableEq

/-- Model of `calculateHealthScore`. Note that the response-time term is
added only when `responseTime > 0`. -/
def calculateHealthScore (server : ServerRec) : ℚ :=
  match server.health with
  | none => 0
  | some h =>
      (if h.responseTime > 0 then max 0 (100 - h.responseTime) else 0)
      + min 100 (h.uptime / 3600)
      + max 0 (100 - h.load * 20)
      + max 0 (100 - h.memoryUsage)
      + max 0 (100 - h.diskUsage)

/-- Modelled from the spec words: the composite score formula as written in
the specification, with the response-time term unconditional. -/
def specHealthScore (server : ServerRec) : ℚ :=
  match server.health with
  | none => 0
  | some h =>
      max 0 (100 - h.responseTime) + min 100 (h.uptime / 3600)
      + max 0 (100 - h.load * 20) + max 0 (100 - h.memoryUsage)
      + max 0 (100 - h.diskUsage)

/-- Model of the selection in `updateHealthBasedDNS`: the JS reduce without
an initial value, keeping the incumbent on ties. -/
def updateHealthBasedDNS : List ServerRec → Option ServerRec
  | [] => none
  | s :: rest =>
      some (rest.foldl
        (fun best current =>
          if calculateHealthScore current > calculateHealthScore best then current else best) s)

/-- First server attaining the maximal code score, by direct recursion; used
to characterize the fold in `updateHealthBasedDNS`. -/
def firstMaxByScore : List ServerRec → Option ServerRec
  | [] => none
  | s :: rest =>
      match firstMaxByScore rest with
      | none => some s
      | some t =>
          if calculateHealthScore t > calculateHealthScore s then some t else some s

theorem foldl_best_eq (l : List ServerRec) (acc : ServerRec) :
    l.foldl
      (fun best current =>
        if calculateHealthScore current > calculateHealthScore best then current else best) acc
    = match firstMaxByScore l with
      | none => acc
      | some t => if calculateHealthScore t > calculateHealthScore acc then t else acc := by
  induction l generalizing acc with
  | nil => rfl
  | cons x xs ih =>
      simp only [List.foldl_cons, firstMaxByScore, ih]
      cases hxs : firstMaxByScore xs with
      | none => rfl
      | some t =>
          by_cases h1 : calculateHealthScore t > calculateHealthScore x
          · simp only [if_pos h1]
            by_cases h2 : calculateHealthScore x > calculateHealthScore acc
            · simp only [if_pos h2, if_pos h1, if_pos (lt_trans h2 h1)]
            · simp only [if_neg h2]
          · simp only [if_neg h1]
            by_cases h2 : calculateHealthScore x > calculateHealthScore acc
            · simp only [if_pos h2, if_neg h1]
            · simp only [if_neg h2]
              have h3 : ¬ calculateHealthScore t > calculateHealthScore acc := by
                push_neg at h1 h2 ⊢
                exact le_trans h1 h2
              simp only [if_neg h3]

theorem updateHealthBasedDNS_eq_firstMax (l : List ServerRec) :
    updateHealthBasedDNS l = firstMaxByScore l := by
  cases l with
  | nil => rfl
  | cons s rest =>
      simp only [updateHealthBasedDNS, foldl_best_eq, firstMaxByScore]
      cases h : firstMaxByScore rest with
      | none => rfl
      | some t =>
          by_cases h1 : calculateHealthScore t > calculateHealthScore s
          · simp [if_pos h1]
          · simp [if_neg h1]

theorem firstMaxByScore_spec (l : List ServerRec) (hne : l ≠ []) :
    ∃ best l₁ l₂,
      firstMaxByScore l = some best
      ∧ l = l₁ ++ best :: l₂
      ∧ (∀ t ∈ l₁, calculateHealthScore t < calculateHealthScore best)
      ∧ ∀ t ∈ l, calculateHealthScore t ≤ calculateHealthScore best := by
  induction l with
  | nil => exact absurd rfl hne
  | cons x xs ih =>
      cases hxs : firstMaxByScore xs with
      | none =>
          have hxsnil : xs = [] := by
            cases xs with
            | nil => rfl
            | cons y ys =>
                simp only [firstMaxByScore] at hxs
                cases h : firstMaxByScore ys with
                | none => simp [h] at hxs
                | some v =>
                    simp only [h] at hxs
                    split at hxs <;> simp_all
          subst hxsnil
          refine ⟨x, [], [], ?_, rfl, ?_, ?_⟩
          · rfl
          · intro t ht; simp at ht
          · intro t ht; simp at ht; subst ht; exact le_refl _
      | some b =>
          obtain ⟨b', l₁, l₂, hb', heq, hlt, hle⟩ := ih (by
            intro h; subst h; simp [firstMaxByScore] at hxs)
          rw [hxs] at hb'
          injection hb' with hb'; subst hb'
          by_cases h1 : calculateHealthScore b > calculateHealthScore x
          · refine ⟨b, x :: l₁, l₂, ?_, by rw [heq]; rfl, ?_, ?_⟩
            · simp only [firstMaxByScore, hxs, if_pos h1]
            · intro t ht
              rcases List.mem_cons.mp ht with h | h
              · subst h; exact h1
              · exact hlt t h
            · intro t ht
              rcases List.mem_cons.mp ht with h | h
              · subst h; exact le_of_lt h1
              · exact hle t h
          · push_neg at h1
            refine ⟨x, [], xs, ?_, rfl, ?_, ?_⟩
            · simp only [firstMaxByScore, hxs, if_neg (not_lt.mpr h1)]
            · intro t ht; simp at ht
            · intro t ht
              rcases List.mem_cons.mp ht with h | h
              · subst h; exact le_refl _
              · exact le_trans (hle t h) h1

/-! Weighted selection. -/

/-- Total weight of a server list (the JS reduce with initial value 0). -/
def totalWeight (servers : List ServerRec) : ℚ :=
  servers.foldl (fun sum s => sum + (s.weight : ℚ)) 0

theorem totalWeight_foldl_shift (servers : List ServerRec) (a : ℚ) :
    servers.foldl (fun sum s => sum + (s.weight : ℚ)) a = a + totalWeight servers := by
  induction servers generalizing a with
  | nil => simp [totalWeight]
  | cons x xs ih =>
      simp only [totalWeight, List.foldl_cons, zero_add] at *
      rw [ih, ih ((x.weight : ℚ))]
      ring

theorem totalWeight_cons (s : ServerRec) (rest : List ServerRec) :
    totalWeight (s :: rest) = (s.weight : ℚ) + totalWeight rest := by
  simp only [totalWeight, List.foldl_cons, zero_add]
  exact totalWeight_foldl_shift rest _

/-- Model of the walk in `updateWeightedDNS`: subtract each weight from the
drawn value in turn and advertise the first server at which the running
value drops to zero or below. -/
def updateWeightedDNS : List ServerRec → ℚ → Option ServerRec
  | [], _ => none
  | s :: rest, r =>
      if r - (s.weight : ℚ) ≤ 0 then some s
      else updateWeightedDNS rest (r - (s.weight : ℚ))

/-! Resolver reload paths. -/

/-- External commands the reload helpers may run. -/
inductive SysCmd
  | rndcReload
  | serviceNamedRestart
  deriving DecidableEq

/-- Environment telling whether each external command would succeed. -/
structure ExecEnv where
  reloadOk : Bool
  restartOk : Bool
  deriving DecidableEq

/-- Model of the sync module function `reloadBind9`: on reload failure it
tries a full service restart and rethrows only the restart error. The first
component is the list of commands issued, the second the outcome. -/
def syncReloadBind9 (env : ExecEnv) : List SysCmd × Except Unit Unit :=
  if env.reloadOk then ([SysCmd.rndcReload], Except.ok ())
  else if env.restartOk then ([SysCmd.rndcReload, SysCmd.serviceNamedRestart], Except.ok ())
  else ([SysCmd.rndcReload, SysCmd.serviceNamedRestart], Except.error ())

/-- Model of the method `DNSLoadBalancerService.reloadBind9`: it runs the
reload command inside a try/catch that only logs, so no restart is attempted
and no error escapes, whatever the command outcome. -/
def serviceReloadBind9 (_env : ExecEnv) : List SysCmd × Except Unit Unit :=
  ([SysCmd.rndcReload], Except.ok ())

/-! Scheduler state machine. -/

/-- Scheduler state: the running flag and interval handle of the service,
plus a count of live interval timers in the runtime. -/
structure SchedulerState where
  isRunning : Bool
  healthCheckInterval : Option ℕ
  activeTimers : ℕ
  deriving DecidableEq

/-- State before any start: not running, no timer. -/
def initialScheduler : SchedulerState := ⟨false, none, 0⟩

/-- Model of `startHealthChecks`: returns immediately when already running,
otherwise marks running and installs one interval timer. -/
def startHealthChecks (s : SchedulerState) : SchedulerState :=
  if s.isRunning then s
  else { isRunning := true, healthCheckInterval := some s.activeTimers,
         activeTimers := s.activeTimers + 1 }

/-- Model of `stopHealthChecks`: clears the interval when present and marks
not running. -/
def stopHealthChecks (s : SchedulerState) : SchedulerState :=
  match s.healthCheckInterval with
  | some _ => { isRunning := false, healthCheckInterval := none,
                activeTimers := s.activeTimers - 1 }
  | none => { s with isRunning := false }

/-! Zone synthesis. -/

/-- Stored DNS record of a domain. -/
structure RecordRec where
  name : Chars
  rtype : String
  value : Chars
  ttl : ℤ
  priority : Option ℤ
  weight : Option ℤ
  port : Option ℤ
  isLoadBalanced : Bool
  deriving DecidableEq

/-- Domain with its stored records. -/
structure DomainRec where
  name : Chars
  records : List RecordRec
  deriving DecidableEq

/-- Balancer as seen by the zone synthesizer. -/
structure LoadBalancerRec where
  name : Chars
  isActive : Bool
  algorithm : String
  domainName : Chars
  servers : List ServerRec
  deriving DecidableEq

/-- One emitted zone line, with the textual fields kept structured. -/
structure ZoneLine where
  name : Chars
  rtype : String
  priority : Option ℤ
  weight : Option ℤ
  port : Option ℤ
  value : Chars
  deriving DecidableEq

/-- JS truthiness of an optional integer field, as used by the interpolation
guards: present and nonzero. -/
def truthyInt : Option ℤ → Option ℤ
  | some v => if v = 0 then none else some v
  | none => none

/-- Model of the record-name handling in `createZoneFile`: the apex name
becomes "@", names under the domain have the domain suffix removed, and
foreign dotted names are skipped. -/
def normalizeRecordName (domainName nm : Chars) : Option Chars :=
  if nm = domainName then some ['@']
  else if endsWithL nm ('.' :: domainName) then
    some (replaceFirstL nm ('.' :: domainName) [])
  else if containsL nm ('.' :: domainName) then
    some (replaceFirstL nm ('.' :: domainName) [])
  else if containsL nm ['.'] && ! endsWithL nm domainName then none
  else some nm

/-- Model of the CNAME target normalization in `createZoneFile`. -/
def cnameNormalize (domainName value : Chars) : Chars :=
  let t :=
    if endsWithL value ('.' :: domainName) then replaceFirstL value ('.' :: domainName) []
    else value
  if endsWithL t ['.'] then t
  else t ++ '.' :: domainName ++ ['.']

/-- Lines emitted for one stored record by the static part of
`createZoneFile`. -/
def staticRecordLines (domainName : Chars) (r : RecordRec) : List ZoneLine :=
  if r.isLoadBalanced then []
  else
    match normalizeRecordName domainName r.name with
    | none => []
    | some rn =>
        if r.rtype = "MX" then
          [⟨rn, "MX", some (match truthyInt r.priority with | some p => p | none => 10),
            none, none, r.value⟩]
        else if r.rtype = "CNAME" then
          [⟨rn, "CNAME", none, none, none, cnameNormalize domainName r.value⟩]
        else
          [⟨rn, r.rtype, truthyInt r.priority, truthyInt r.weight, truthyInt r.port, r.value⟩]

/-- Healthy-server filter used by the balancer part of `createZoneFile`. -/
def healthyServersOf (lb : LoadBalancerRec) : List ServerRec :=
  lb.servers.filter (fun s =>
    s.isActive && match s.health with
      | some h => h.status == "healthy"
      | none => false)

/-- Sort key of the health-based zone branch: the response time of the
health row, defaulting to 0. -/
def responseTimeKey (s : ServerRec) : ℚ :=
  match s.health with
  | some h => h.responseTime
  | none => 0

/-- Stable insertion into a list sorted ascending by response time. -/
def insertByResponseTime (x : ServerRec) : List ServerRec → List ServerRec
  | [] => [x]
  | y :: ys =>
      if responseTimeKey x < responseTimeKey y then x :: y :: ys
      else y :: insertByResponseTime x ys

/-- Stable ascending sort by response time, modelling the JS stable sort
with the comparator of the health-based branch. -/
def sortByResponseTime : List ServerRec → List ServerRec
  | [] => []
  | x :: xs => insertByResponseTime x (sortByResponseTime xs)

/-- Number of A records emitted per server by the weighted branch:
`Math.floor(weight / 10)`, a negative count running the loop zero times. -/
def weightedCount (w : ℤ) : ℕ := (⌊(w : ℚ) / 10⌋).toNat

/-- SRV record weight computed by the code: `Math.floor((1 / n) * 100)`. -/
def srvWeight (n : ℕ) : ℤ := ⌊(1 / (n : ℚ)) * 100⌋

/-- A records emitted for one balancer according to its algorithm (the
switch in `createZoneFile`; an unrecognized algorithm emits nothing). -/
def algorithmLines (lb : LoadBalancerRec) (healthy : List ServerRec) : List ZoneLine :=
  if lb.algorithm = "round-robin" then
    healthy.map (fun s => ⟨lb.name, "A", none, none, none, s.ip⟩)
  else if lb.algorithm = "weighted" then
    healthy.flatMap (fun s =>
      List.replicate (weightedCount s.weight) ⟨lb.name, "A", none, none, none, s.ip⟩)
  else if lb.algorithm = "health-based" then
    ((sortByResponseTime healthy).take 3).map (fun s => ⟨lb.name, "A", none, none, none, s.ip⟩)
  else []

/-- SRV records emitted for one balancer when more than one healthy server
exists. -/
def srvLines (domainName : Chars) (lb : LoadBalancerRec) (healthy : List ServerRec) :
    List ZoneLine :=
  if 1 < healthy.length then
    healthy.map (fun s =>
      ⟨'_' :: lb.name ++ "._tcp.".toList ++ domainName ++ ['.'], "SRV",
        some 0, some (srvWeight healthy.length), some s.port, s.ip⟩)
  else []

/-- Lines contributed by one balancer to the zone of `domainName`. -/
def lbZoneLines (domainName : Chars) (lb : LoadBalancerRec) : List ZoneLine :=
  if lb.isActive && lb.domainName == domainName && ! lb.servers.isEmpty then
    let healthy := healthyServersOf lb
    if healthy.isEmpty then []
    else algorithmLines lb healthy ++ srvLines domainName lb healthy
  else []

/-- Fixed zone preamble: the NS and A lines of the header (the SOA header
text carries no record fields and is abstracted away). -/
def preambleLines (domainName : Chars) : List ZoneLine :=
  [⟨['@'], "NS", none, none, none, "ns1.".toList ++ domainName ++ ['.']⟩,
   ⟨['@'], "A", none, none, none, "127.0.0.1".toList⟩,
   ⟨"ns1".toList, "A", none, none, none, "127.0.0.1".toList⟩]

/-- Model of `createZoneFile`: preamble, then static records, then balancer
records, in source order. -/
def createZoneFile (domain : DomainRec) (loadBalancers : List LoadBalancerRec) :
    List ZoneLine :=
  preambleLines domain.name
    ++ domain.records.flatMap (staticRecordLines domain.name)
    ++ loadBalancers.flatMap (lbZoneLines domain.name)

/-- Record persisted by `createOrUpdateDNSRecord` after a selection pass:
name `<balancerName>.<domainName>`, type A, the chosen server IP, TTL 60.
The create call sets no `isLoadBalanced` flag, so the database default
`false` applies. -/
def persistedLBRecord (lbName domainName ip : Chars) : RecordRec :=
  ⟨lbName ++ '.' :: domainName, "A", ip, 60, none, none, none, false⟩

/-! Claim theorems. -/

/-- C5: for every pair of probe statuses the composite status computed by
`determineOverallStatus` equals the ordered spec policy (ping reachable and
port reachable or inapplicable gives healthy; ping reachable and port
unreachable gives degraded; ping unreachable and port reachable gives
degraded; otherwise unhealthy), and the result is always one of exactly
healthy, degraded and unhealthy. -/
theorem determineOverallStatus_matches_policy (pingStatus portStatus : String) :
    determineOverallStatus pingStatus portStatus = specOverallStatus pingStatus portStatus
    ∧ (determineOverallStatus pingStatus portStatus = "healthy"
       ∨ determineOverallStatus pingStatus portStatus = "degraded"
       ∨ determineOverallStatus pingStatus portStatus = "unhealthy") := by
  constructor
  · unfold determineOverallStatus specOverallStatus
    split_ifs <;> simp_all
  · unfold determineOverallStatus
    split_ifs <;> simp

/-- C6: CNAME normalization for domain example.com maps value foo to
foo.example.com., maps foo.example.com to the same, leaves the absolute
bar.example.com. unchanged, and in general the emitted target always ends
in a trailing dot. -/
theorem cname_normalization_ok :
    cnameNormalize ("example.com".toList) ("foo".toList) = "foo.example.com.".toList
    ∧ cnameNormalize ("example.com".toList) ("foo.example.com".toList) = "foo.example.com.".toList
    ∧ cnameNormalize ("example.com".toList) ("bar.example.com.".toList) = "bar.example.com.".toList
    ∧ ∀ domainName value : Chars, endsWithL (cnameNormalize domainName value) ['.'] = true := by
  refine ⟨by decide, by decide, by decide, ?_⟩
  intro d v
  unfold cnameNormalize
  set t := if endsWithL v ('.' :: d) then replaceFirstL v ('.' :: d) [] else v with ht
  by_cases h : endsWithL t ['.'] = true
  · simp [h]
  · simp only [Bool.not_eq_true] at h
    simp only [h, Bool.false_eq_true, if_false]
    have hshape : t ++ '.' :: d ++ ['.'] = (t ++ '.' :: d) ++ ['.'] := by simp
    rw [hshape]
    exact endsWithL_append_singleton _ _

/-- C8: starting the scheduler while already running is a no-op, two starts
from the stopped initial state leave exactly one live timer, and stopping
before any start leaves the initial stopped state with no timer. -/
theorem scheduler_boundary_idempotence :
    (∀ (t : Option ℕ) (n : ℕ), startHealthChecks ⟨true, t, n⟩ = ⟨true, t, n⟩)
    ∧ startHealthChecks (startHealthChecks initialScheduler) = startHealthChecks initialScheduler
    ∧ (startHealthChecks (startHealthChecks initialScheduler)).activeTimers = 1
    ∧ stopHealthChecks initialScheduler = initialScheduler
    ∧ initialScheduler.isRunning = false
    ∧ initialScheduler.healthCheckInterval = none := by
  exact ⟨fun t n => rfl, rfl, rfl, rfl, rfl, rfl⟩

/-- C9: for a server on port 53 the DNS port probe reports healthy
unconditionally, so the composite status on the non-exception path is
healthy exactly when the ping succeeds and degraded otherwise, and it is
never unhealthy. -/
theorem port53_status_never_unhealthy (pingResult httpResult : ProbeResult) (dnsElapsed : ℚ) :
    checkServerHealthStatus 53 pingResult httpResult dnsElapsed
      = (if pingResult.status = "healthy" then "healthy" else "degraded")
    ∧ (dnsHealthCheck dnsElapsed).status = "healthy"
    ∧ checkServerHealthStatus 53 pingResult httpResult dnsElapsed ≠ "unhealthy" := by
  have h1 : checkServerHealthStatus 53 pingResult httpResult dnsElapsed
      = (if pingResult.status = "healthy" then "healthy" else "degraded") := by
    unfold checkServerHealthStatus portCheck dnsHealthCheck determineOverallStatus
    simp only [if_pos rfl]
    split_ifs <;> simp_all
  refine ⟨h1, rfl, ?_⟩
  rw [h1]
  split_ifs <;> decide

theorem port53_status_never_unhealthy_witness :
    checkServerHealthStatus 53 ⟨"unhealthy", -1⟩ ⟨"unhealthy", -1⟩ 0 = "degraded"
    ∧ checkServerHealthStatus 53 ⟨"unhealthy", -1⟩ ⟨"unhealthy", -1⟩ 0 ≠ "unhealthy" := by
  have h := port53_status_never_unhealthy ⟨"unhealthy", -1⟩ ⟨"unhealthy", -1⟩ 0
  refine ⟨?_, h.2.2⟩
  rw [h.1]
  decide

/-- Server whose health row has response time 0 and otherwise perfect
metrics; used to separate the code score from the spec formula. -/
def zeroRTServer : ServerRec :=
  ⟨"a".toList, "10.0.0.1".toList, 80, 100, true, some ⟨"healthy", 0, 0, 0, 0, 0⟩⟩

/-- C2 counterexample: at responseTime 0 the code omits the response-time
term entirely (it is added only when responseTime is strictly positive), so
the computed score is 300 while the claimed formula yields 400. -/
theorem healthScore_formula_deviation :
    calculateHealthScore zeroRTServer = 300
    ∧ specHealthScore zeroRTServer = 400
    ∧ calculateHealthScore zeroRTServer ≠ specHealthScore zeroRTServer := by
  refine ⟨?_, ?_, ?_⟩ <;>
    norm_num [calculateHealthScore, specHealthScore, zeroRTServer, min_def, max_def]

/-- C2 amended: for every non-empty server list, health-based selection
advertises exactly one server, namely the first server in iteration order
attaining the maximal code score, where the code score adds the term
max(0, 100 - responseTime) only when responseTime is strictly positive and
contributes 0 otherwise. -/
theorem healthBased_first_max_selected (servers : List ServerRec) (hne : servers ≠ []) :
    ∃ best l₁ l₂,
      updateHealthBasedDNS servers = some best
      ∧ servers = l₁ ++ best :: l₂
      ∧ (∀ t ∈ l₁, calculateHealthScore t < calculateHealthScore best)
      ∧ ∀ t ∈ servers, calculateHealthScore t ≤ calculateHealthScore best := by
  obtain ⟨b, l₁, l₂, h1, h2, h3, h4⟩ := firstMaxByScore_spec servers hne
  exact ⟨b, l₁, l₂, by rw [updateHealthBasedDNS_eq_firstMax]; exact h1, h2, h3, h4⟩

/-- Two concrete healthy servers used to instantiate the health-based
selection theorem. -/
def scoreServerA : ServerRec :=
  ⟨"a".toList, "10.0.0.1".toList, 80, 100, true, some ⟨"healthy", 50, 7200, 1, 20, 30⟩⟩

def scoreServerB : ServerRec :=
  ⟨"b".toList, "10.0.0.2".toList, 80, 100, true, some ⟨"healthy", 10, 3600, 0, 10, 10⟩⟩

theorem healthBased_first_max_selected_witness :
    [scoreServerA, scoreServerB] ≠ ([] : List ServerRec)
    ∧ ∃ best l₁ l₂,
        updateHealthBasedDNS [scoreServerA, scoreServerB] = some best
        ∧ [scoreServerA, scoreServerB] = l₁ ++ best :: l₂
        ∧ (∀ t ∈ l₁, calculateHealthScore t < calculateHealthScore best)
        ∧ ∀ t ∈ [scoreServerA, scoreServerB],
            calculateHealthScore t ≤ calculateHealthScore best :=
  ⟨by simp, healthBased_first_max_selected [scoreServerA, scoreServerB] (by simp)⟩

/-- Weight-0 server at the head of a weighted list. -/
def zeroWeightServer : ServerRec :=
  ⟨"z".toList, "10.0.0.9".toList, 80, 0, true, none⟩

/-- Weight-5 server following it. -/
def fiveWeightServer : ServerRec :=
  ⟨"f".toList, "10.0.0.5".toList, 80, 5, true, none⟩

/-- C3 counterexample: the draw 0 lies in the interval from 0 to the total
weight 5, yet the walk selects the weight-0 server at the head of the list,
because the very first subtraction already yields a value at or below 0. -/
theorem weighted_zero_weight_selected :
    (0:ℚ) ≤ 0
    ∧ (0:ℚ) < totalWeight [zeroWeightServer, fiveWeightServer]
    ∧ updateWeightedDNS [zeroWeightServer, fiveWeightServer] 0 = some zeroWeightServer
    ∧ zeroWeightServer.weight = 0 := by
  refine ⟨le_refl _, ?_, ?_, rfl⟩
  · norm_num [totalWeight_cons, totalWeight, zeroWeightServer, fiveWeightServer]
  · norm_num [updateWeightedDNS, zeroWeightServer]

theorem updateWeightedDNS_pos_weight :
    ∀ (servers : List ServerRec) (r : ℚ),
      (∀ s ∈ servers, (0:ℤ) ≤ s.weight) → 0 < r → r < totalWeight servers →
      ∃ s, updateWeightedDNS servers r = some s ∧ (0:ℤ) < s.weight := by
  intro servers
  induction servers with
  | nil =>
      intro r _ hr hrt
      simp only [totalWeight, List.foldl_nil] at hrt
      exact absurd hrt (not_lt.mpr (le_of_lt hr))
  | cons s rest ih =>
      intro r hw hr hrt
      rw [totalWeight_cons] at hrt
      by_cases hle : r - (s.weight:ℚ) ≤ 0
      · refine ⟨s, ?_, ?_⟩
        · simp [updateWeightedDNS, hle]
        · have hsq : (0:ℚ) < (s.weight:ℚ) := by linarith
          exact_mod_cast hsq
      · push_neg at hle
        obtain ⟨t, hsel, hpos⟩ := ih (r - (s.weight:ℚ))
          (fun t ht => hw t (List.mem_cons_of_mem _ ht)) (by linarith) (by linarith)
        exact ⟨t, by simp [updateWeightedDNS, not_le.mpr hle, hsel], hpos⟩

/-- C3 amended: with nonnegative weights, every draw strictly between 0 and
the total weight selects a server of strictly positive weight; a draw of
exactly 0, however, always selects the first server of the list, whatever
its weight (which is how a weight-0 head gets selected). -/
theorem updateWeightedDNS_amended (servers : List ServerRec) (r : ℚ)
    (hw : ∀ s ∈ servers, (0:ℤ) ≤ s.weight) :
    (0 < r → r < totalWeight servers →
      ∃ s, updateWeightedDNS servers r = some s ∧ (0:ℤ) < s.weight)
    ∧ ∀ s0 rest, servers = s0 :: rest → updateWeightedDNS servers 0 = some s0 := by
  constructor
  · exact fun h1 h2 => updateWeightedDNS_pos_weight servers r hw h1 h2
  · rintro s0 rest rfl
    have h0 : (0:ℚ) - (s0.weight:ℚ) ≤ 0 := by
      have hnn : (0:ℤ) ≤ s0.weight := hw s0 (List.mem_cons_self _ _)
      have hq : (0:ℚ) ≤ (s0.weight:ℚ) := by exact_mod_cast hnn
      linarith
    simp only [updateWeightedDNS]
    rw [if_pos h0]

theorem updateWeightedDNS_amended_witness :
    ((0:ℚ) < 1 → (1:ℚ) < totalWeight [fiveWeightServer] →
      ∃ s, updateWeightedDNS [fiveWeightServer] 1 = some s ∧ (0:ℤ) < s.weight)
    ∧ ∃ s, updateWeightedDNS [fiveWeightServer] 1 = some s ∧ (0:ℤ) < s.weight := by
  have h := updateWeightedDNS_amended [fiveWeightServer] 1 (by decide)
  refine ⟨h.1, h.1 (by norm_num) ?_⟩
  norm_num [totalWeight_cons, totalWeight, fiveWeightServer]

/-- C4 counterexample: in the environment where both the reload and the
restart command would fail, the service-class reload path still returns
success and never issues the restart command. -/
theorem serviceReload_swallows_failure :
    serviceReloadBind9 ⟨false, false⟩ = ([SysCmd.rndcReload], Except.ok ())
    ∧ SysCmd.serviceNamedRestart ∉ (serviceReloadBind9 ⟨false, false⟩).1 := by
  exact ⟨rfl, by decide⟩

/-- C4 amended: on the sync-module zone-commit path a failing reload
triggers the restart fallback and the error propagates exactly when both
commands fail; the service-class periodic path, by contrast, only ever
issues the reload command and always reports success. -/
theorem reload_fallback_paths (env : ExecEnv) :
    (env.reloadOk = false →
      (syncReloadBind9 env).1 = [SysCmd.rndcReload, SysCmd.serviceNamedRestart])
    ∧ (env.reloadOk = false → env.restartOk = false →
      (syncReloadBind9 env).2 = Except.error ())
    ∧ (env.reloadOk = false → env.restartOk = true →
      (syncReloadBind9 env).2 = Except.ok ())
    ∧ (env.reloadOk = true →
      (syncReloadBind9 env).1 = [SysCmd.rndcReload]
      ∧ (syncReloadBind9 env).2 = Except.ok ())
    ∧ (serviceReloadBind9 env).1 = [SysCmd.rndcReload]
    ∧ (serviceReloadBind9 env).2 = Except.ok () := by
  obtain ⟨r, t⟩ := env
  cases r <;> cases t <;> simp [syncReloadBind9, serviceReloadBind9]

theorem reload_fallback_paths_witness :
    (syncReloadBind9 ⟨false, false⟩).1 = [SysCmd.rndcReload, SysCmd.serviceNamedRestart]
    ∧ (syncReloadBind9 ⟨false, false⟩).2 = Except.error () :=
  ⟨(reload_fallback_paths ⟨false, false⟩).1 rfl,
   (reload_fallback_paths ⟨false, false⟩).2.1 rfl rfl⟩

theorem algorithmLines_all_A (lb : LoadBalancerRec) (healthy : List ServerRec) :
    ∀ z ∈ algorithmLines lb healthy, z.rtype = "A" := by
  intro z hz
  unfold algorithmLines at hz
  split_ifs at hz
  · obtain ⟨s, _, rfl⟩ := List.mem_map.mp hz; rfl
  · obtain ⟨s, _, hz2⟩ := List.mem_flatMap.mp hz
    have := List.eq_of_mem_replicate hz2
    subst this; rfl
  · obtain ⟨s, _, rfl⟩ := List.mem_map.mp hz; rfl
  · simp at hz

theorem filter_srv_algorithmLines (lb : LoadBalancerRec) (healthy : List ServerRec) :
    (algorithmLines lb healthy).filter (fun z => z.rtype == "SRV") = [] := by
  rw [List.filter_eq_nil_iff]
  intro z hz
  have h := algorithmLines_all_A lb healthy z hz
  simp [h]

theorem srvLines_all_SRV (domainName : Chars) (lb : LoadBalancerRec)
    (healthy : List ServerRec) :
    ∀ z ∈ srvLines domainName lb healthy, z.rtype = "SRV" := by
  intro z hz
  unfold srvLines at hz
  split_ifs at hz
  · obtain ⟨s, _, rfl⟩ := List.mem_map.mp hz; rfl
  · simp at hz

theorem filter_A_srvLines (domainName : Chars) (lb : LoadBalancerRec)
    (healthy : List ServerRec) :
    (srvLines domainName lb healthy).filter (fun z => z.rtype == "A") = [] := by
  rw [List.filter_eq_nil_iff]
  intro z hz
  have h := srvLines_all_SRV domainName lb healthy z hz
  simp [h]

theorem srvWeight_eq_natDiv (n : ℕ) (_hn : 2 ≤ n) : srvWeight n = ((100 / n : ℕ) : ℤ) := by
  unfold srvWeight
  rw [div_mul_eq_mul_div, one_mul]
  have h1 : ((100:ℚ)) = ((100:ℤ) : ℚ) := by norm_num
  rw [h1, Rat.floor_intCast_div_natCast]
  exact (Int.natCast_div 100 n).symm

theorem weightedCount_le_nine (w : ℤ) (hw : w ≤ 9) : weightedCount w = 0 := by
  unfold weightedCount
  have h1 : ((w:ℚ))/10 < 1 := by
    rw [div_lt_one (by norm_num)]
    have h9 : (w:ℚ) ≤ 9 := by exact_mod_cast hw
    linarith
  have h2 : ⌊(w:ℚ)/10⌋ < 1 := Int.floor_lt.mpr (by exact_mod_cast h1)
  rw [Int.toNat_eq_zero]
  omega

/-- C7: for an active balancer on its own domain with more than one healthy
server, the balancer section of the zone holds exactly one SRV record per
healthy server, named underscore balancer-name dot _tcp dot domain dot,
each with priority 0 and the code weight floor((1/N)*100), which equals
floor(100/N) for every N at least 2; with at most one healthy server no SRV
record is emitted. -/
theorem srv_records_per_healthy_server (domainName : Chars) (lb : LoadBalancerRec)
    (hact : lb.isActive = true) (hdom : lb.domainName = domainName) :
    (1 < (healthyServersOf lb).length →
      (lbZoneLines domainName lb).filter (fun z => z.rtype == "SRV")
        = (healthyServersOf lb).map (fun s =>
            ⟨'_' :: lb.name ++ "._tcp.".toList ++ domainName ++ ['.'], "SRV",
             some 0, some (srvWeight (healthyServersOf lb).length), some s.port, s.ip⟩))
    ∧ ((healthyServersOf lb).length ≤ 1 →
      (lbZoneLines domainName lb).filter (fun z => z.rtype == "SRV") = [])
    ∧ ∀ n : ℕ, 2 ≤ n → srvWeight n = ((100 / n : ℕ) : ℤ) := by
  refine ⟨?_, ?_, fun n hn => srvWeight_eq_natDiv n hn⟩
  · intro hlen
    have hne : healthyServersOf lb ≠ [] := by
      intro h; rw [h] at hlen; simp at hlen
    have hservne : lb.servers ≠ [] := by
      intro h
      apply hne
      unfold healthyServersOf
      rw [h]
      rfl
    have hcond : (lb.isActive && lb.domainName == domainName && ! lb.servers.isEmpty) = true := by
      rw [hact, hdom]
      simp [List.isEmpty_iff, hservne]
    have hemp : (healthyServersOf lb).isEmpty = false := by
      simp [List.isEmpty_iff, hne]
    simp only [lbZoneLines, hcond, if_true, hemp, Bool.false_eq_true, if_false]
    rw [List.filter_append, filter_srv_algorithmLines, List.nil_append]
    unfold srvLines
    rw [if_pos hlen]
    apply List.filter_eq_self.mpr
    intro z hz
    obtain ⟨s, _, rfl⟩ := List.mem_map.mp hz
    rfl
  · intro hlen
    by_cases hserv : lb.servers = []
    · have hcond : (lb.isActive && lb.domainName == domainName && ! lb.servers.isEmpty) = false := by
        rw [hserv]; simp
      simp [lbZoneLines, hcond]
    · have hcond : (lb.isActive && lb.domainName == domainName && ! lb.servers.isEmpty) = true := by
        rw [hact, hdom]
        simp [List.isEmpty_iff, hserv]
      by_cases hemp : (healthyServersOf lb).isEmpty
      · simp [lbZoneLines, hcond, hemp]
      · have hemp' : (healthyServersOf lb).isEmpty = false := by
          simpa using hemp
        simp only [lbZoneLines, hcond, if_true, hemp', Bool.false_eq_true, if_false]
        rw [List.filter_append, filter_srv_algorithmLines, List.nil_append]
        unfold srvLines
        rw [if_neg (not_lt.mpr hlen)]
        rfl

/-- First concrete healthy server of the SRV scenario. -/
def srvServer1 : ServerRec :=
  ⟨"a".toList, "10.0.0.1".toList, 8080, 100, true, some ⟨"healthy", 5, 0, 0, 0, 0⟩⟩

/-- Second concrete healthy server of the SRV scenario. -/
def srvServer2 : ServerRec :=
  ⟨"b".toList, "10.0.0.2".toList, 8081, 100, true, some ⟨"healthy", 6, 0, 0, 0, 0⟩⟩

/-- Concrete active balancer with two healthy servers. -/
def srvLB : LoadBalancerRec :=
  ⟨"api".toList, true, "round-robin", "example.com".toList, [srvServer1, srvServer2]⟩

theorem srv_records_per_healthy_server_witness :
    1 < (healthyServersOf srvLB).length
    ∧ (lbZoneLines ("example.com".toList) srvLB).filter (fun z => z.rtype == "SRV")
      = (healthyServersOf srvLB).map (fun s =>
          ⟨'_' :: srvLB.name ++ "._tcp.".toList ++ ("example.com".toList) ++ ['.'], "SRV",
           some 0, some (srvWeight (healthyServersOf srvLB).length), some s.port, s.ip⟩)
    ∧ srvWeight 2 = ((100 / 2 : ℕ) : ℤ) :=
  ⟨by decide,
   (srv_records_per_healthy_server ("example.com".toList) srvLB rfl rfl).1 (by decide),
   (srv_records_per_healthy_server ("example.com".toList) srvLB rfl rfl).2.2 2 (by norm_num)⟩

/-- C10: a weight below 10 contributes floor(weight/10) = 0 A records, and a
weighted balancer all of whose healthy servers have weight at most 9 emits
no A record at all even though healthy servers exist. -/
theorem weighted_low_weight_no_A (domainName : Chars) (lb : LoadBalancerRec)
    (halg : lb.algorithm = "weighted")
    (hw : ∀ s ∈ healthyServersOf lb, s.weight ≤ 9)
    (_hne : healthyServersOf lb ≠ []) :
    (∀ w : ℤ, w ≤ 9 → weightedCount w = 0)
    ∧ (lbZoneLines domainName lb).filter (fun z => z.rtype == "A") = [] := by
  refine ⟨fun w h => weightedCount_le_nine w h, ?_⟩
  have halgo : algorithmLines lb (healthyServersOf lb) = [] := by
    unfold algorithmLines
    rw [halg]
    simp only [String.reduceEq, if_false, if_true, reduceIte]
    apply List.flatMap_eq_nil_iff.mpr
    intro s hs
    rw [weightedCount_le_nine s.weight (hw s hs)]
    rfl
  have hsrv := filter_A_srvLines domainName lb (healthyServersOf lb)
  unfold lbZoneLines
  split
  · by_cases hemp : (healthyServersOf lb).isEmpty
    · simp [hemp]
    · simp only [Bool.not_eq_true] at hemp
      simp [hemp, List.filter_append, halgo, hsrv]
  · rfl

/-- Concrete healthy server of weight 9. -/
def lowWeightServer : ServerRec :=
  ⟨"w".toList, "10.0.0.3".toList, 80, 9, true, some ⟨"healthy", 1, 0, 0, 0, 0⟩⟩

/-- Concrete active weighted balancer whose only healthy server has
weight 9. -/
def lowWeightLB : LoadBalancerRec :=
  ⟨"shop".toList, true, "weighted", "example.com".toList, [lowWeightServer]⟩

theorem weighted_low_weight_no_A_witness :
    lowWeightLB.algorithm = "weighted"
    ∧ healthyServersOf lowWeightLB ≠ []
    ∧ (∀ w : ℤ, w ≤ 9 → weightedCount w = 0)
    ∧ (lbZoneLines ("example.com".toList) lowWeightLB).filter (fun z => z.rtype == "A") = [] :=
  ⟨rfl, by decide,
   (weighted_low_weight_no_A ("example.com".toList) lowWeightLB rfl (by decide) (by decide)).1,
   (weighted_low_weight_no_A ("example.com".toList) lowWeightLB rfl (by decide) (by decide)).2⟩

/-- Domain name of the stale-record scenario. -/
def exampleDomainName : Chars := "example.com".toList

/-- Server of the stale-record scenario, currently unhealthy. -/
def staleServer : ServerRec :=
  ⟨"s1".toList, "10.0.0.1".toList, 80, 100, true, some ⟨"unhealthy", -1, 0, 0, 0, 0⟩⟩

/-- Balancer web of the stale-record scenario: active, but with an empty
healthy set. -/
def staleLB : LoadBalancerRec :=
  ⟨"web".toList, true, "round-robin", exampleDomainName, [staleServer]⟩

/-- Domain holding exactly the record that a previous selection pass
persisted for balancer web. -/
def staleDomain : DomainRec :=
  ⟨exampleDomainName, [persistedLBRecord ("web".toList) exampleDomainName ("10.0.0.1".toList)]⟩

/-- C1: with the healthy set of balancer web empty, its own loop emits
nothing, yet the zone still carries an A record named web with the stale
server IP, because the record persisted by `createOrUpdateDNSRecord` is not
flagged as load balanced and is re-emitted as a static record. -/
theorem stale_lb_record_reemitted :
    healthyServersOf staleLB = []
    ∧ lbZoneLines exampleDomainName staleLB = []
    ∧ (createZoneFile staleDomain [staleLB]).filter
        (fun z => z.name == "web".toList && z.rtype == "A")
      = [⟨"web".toList, "A", none, none, none, "10.0.0.1".toList⟩] := by
  refine ⟨?_, ?_, ?_⟩ <;> decide
